import Mathlib

/-!
# Verification of the NSO GameCube controller DSU bridge

Shallow embedding of the core of the `nso-gc-bridge` repository:
the DSU (cemuhook) UDP protocol server (`src/dsu_server.py`) and the
HID/BLE report decoder with its calibration engine (`src/main.py`).

Machine integers are modelled as `Nat`/`Int` with explicit `% 2^w`
where Python's `struct` packing would truncate or raise; byte buffers
are `List Nat` with every entry < 256; fallible paths return `Option`.
-/

namespace NSOBridge

/-! ## CRC-32 (zlib)

`DSUServer._calculate_crc32` calls `zlib.crc32(data) & 0xFFFFFFFF`:
the standard reflected CRC-32 (polynomial `0xEDB88320`, initial value
`0xFFFFFFFF`, final complement), processing each byte least-significant
bit first.  We embed it bit-serially over `Nat`, which makes its
GF(2)-linearity available for the single-bit-flip theorem. -/

/-- The reflected CRC-32 polynomial used by zlib. -/
def polyR : Nat := 0xEDB88320

/-- One bit of the reflected CRC-32 update: shift right, conditionally
xor the polynomial when the incoming bit differs from the state's lsb. -/
def crcStep (s : Nat) (b : Bool) : Nat :=
  (s >>> 1) ^^^ (if (s.testBit 0).xor b then polyR else 0)

/-- Run the CRC register over a bit stream. -/
def crcRaw (s : Nat) (l : List Bool) : Nat := l.foldl crcStep s

/-- The eight bits of a byte, least significant first (zlib bit order). -/
def byteBits (c : Nat) : List Bool := (List.range 8).map c.testBit

/-- A byte buffer as a bit stream. -/
def bitsOfBytes (p : List Nat) : List Bool := (p.map byteBits).flatten

/-- Embeds `zlib.crc32(data) & 0xFFFFFFFF`, as computed by `_calculate_crc32`. -/
def crc32 (p : List Nat) : Nat := crcRaw 0xFFFFFFFF (bitsOfBytes p) ^^^ 0xFFFFFFFF

theorem crcRaw_nil (s : Nat) : crcRaw s [] = s := rfl

theorem crcRaw_cons (s : Nat) (b : Bool) (l : List Bool) :
    crcRaw s (b :: l) = crcRaw (crcStep s b) l := rfl

theorem crcRaw_append (s : Nat) (l1 l2 : List Bool) :
    crcRaw s (l1 ++ l2) = crcRaw (crcRaw s l1) l2 :=
  List.foldl_append ..

theorem shiftRight_one_xor (a b : Nat) : (a ^^^ b) >>> 1 = (a >>> 1) ^^^ (b >>> 1) := by
  apply Nat.eq_of_testBit_eq
  intro i
  simp [Nat.testBit_xor, Nat.testBit_shiftRight]

theorem ite_poly_xor (p q : Bool) :
    (if p.xor q then polyR else 0) =
      (if p then polyR else 0) ^^^ (if q then polyR else 0) := by
  cases p <;> cases q <;> simp

theorem xor_cancel_right (a b c : Nat) (h : a ^^^ c = b ^^^ c) : a = b := by
  have h2 := congrArg (fun z => z ^^^ c) h
  simpa [Nat.xor_assoc] using h2

/-- The CRC register update is GF(2)-linear in state and input bit. -/
theorem crcStep_xor (s1 s2 : Nat) (b1 b2 : Bool) :
    crcStep (s1 ^^^ s2) (b1.xor b2) = crcStep s1 b1 ^^^ crcStep s2 b2 := by
  unfold crcStep
  rw [Nat.testBit_xor]
  have hb : ((s1.testBit 0).xor (s2.testBit 0)).xor (b1.xor b2)
      = ((s1.testBit 0).xor b1).xor ((s2.testBit 0).xor b2) := by
    cases s1.testBit 0 <;> cases s2.testBit 0 <;> cases b1 <;> cases b2 <;> rfl
  rw [hb, ite_poly_xor, shiftRight_one_xor]
  rw [Nat.xor_assoc, Nat.xor_assoc]
  congr 1
  rw [← Nat.xor_assoc, ← Nat.xor_assoc]
  congr 1
  exact Nat.xor_comm _ _

/-- The CRC register run is GF(2)-linear over equal-length bit streams. -/
theorem crcRaw_xor : ∀ (l1 l2 : List Bool), l1.length = l2.length →
    ∀ (s1 s2 : Nat),
    crcRaw (s1 ^^^ s2) (List.zipWith Bool.xor l1 l2) = crcRaw s1 l1 ^^^ crcRaw s2 l2 := by
  intro l1
  induction l1 with
  | nil =>
    intro l2 h s1 s2
    cases l2 with
    | nil => rfl
    | cons b t => simp at h
  | cons a t ih =>
    intro l2 h s1 s2
    cases l2 with
    | nil => simp at h
    | cons b t2 =>
      simp only [List.length_cons, Nat.succ.injEq] at h
      simp only [List.zipWith_cons_cons, crcRaw_cons]
      rw [crcStep_xor]
      exact ih t2 h _ _

theorem crcStep_zero_false : crcStep 0 false = 0 := by decide

theorem crcRaw_zero_replicate (n : Nat) :
    crcRaw 0 (List.replicate n false) = 0 := by
  induction n with
  | zero => rfl
  | succ m ih => rw [List.replicate_succ, crcRaw_cons, crcStep_zero_false]; exact ih

theorem crcStep_lt (s : Nat) (b : Bool) (h : s < 2 ^ 32) : crcStep s b < 2 ^ 32 := by
  unfold crcStep
  apply Nat.xor_lt_two_pow
  · have hs : s >>> 1 = s / 2 := by rw [Nat.shiftRight_eq_div_pow]
    omega
  · split
    · norm_num [polyR]
    · norm_num

theorem crcRaw_lt (l : List Bool) : ∀ (s : Nat), s < 2 ^ 32 → crcRaw s l < 2 ^ 32 := by
  induction l with
  | nil => intro s h; exact h
  | cons b t ih => intro s h; rw [crcRaw_cons]; exact ih _ (crcStep_lt s b h)

theorem crc32_lt (p : List Nat) : crc32 p < 2 ^ 32 := by
  unfold crc32
  apply Nat.xor_lt_two_pow
  · exact crcRaw_lt _ _ (by norm_num)
  · norm_num

/-- On a zero input bit, a nonzero 32-bit CRC state stays nonzero:
the update map is injective because the polynomial's top bit is set. -/
theorem crcStep_false_pres (s : Nat) (h1 : s ≠ 0) (h2 : s < 2 ^ 32) :
    crcStep s false ≠ 0 ∧ crcStep s false < 2 ^ 32 := by
  refine ⟨?_, crcStep_lt s false h2⟩
  unfold crcStep
  have hs : s >>> 1 = s / 2 := by rw [Nat.shiftRight_eq_div_pow]
  have hbit : s.testBit 0 = decide (s % 2 = 1) := Nat.testBit_zero s
  rcases hmod : s % 2 with _ | k
  · -- even: the state just shifts; s is nonzero and even, so s / 2 ≠ 0
    rw [hbit, hmod]
    norm_num [hs]
    omega
  · -- odd: the polynomial is xored in, and s >>> 1 < 2^31 ≤ polyR
    have hm : s % 2 = 1 := by omega
    rw [hbit, hm]
    norm_num [hs]
    intro hzero
    norm_num [polyR] at hzero
    omega

theorem crcRaw_false_run_pres (n : Nat) : ∀ (s : Nat), s ≠ 0 → s < 2 ^ 32 →
    crcRaw s (List.replicate n false) ≠ 0 := by
  induction n with
  | zero => intro s h1 _; exact h1
  | succ m ih =>
    intro s h1 h2
    rw [List.replicate_succ, crcRaw_cons]
    obtain ⟨hne, hlt⟩ := crcStep_false_pres s h1 h2
    exact ih _ hne hlt

theorem crcStep_zero_true : crcStep 0 true = polyR := by decide

/-- The CRC of a one-hot bit stream is nonzero: flipping a single bit
of any message changes its CRC. -/
theorem crcRaw_onehot_ne_zero (i m : Nat) :
    crcRaw 0 (List.replicate i false ++ true :: List.replicate m false) ≠ 0 := by
  rw [crcRaw_append, crcRaw_zero_replicate, crcRaw_cons, crcStep_zero_true]
  exact crcRaw_false_run_pres m polyR (by norm_num [polyR]) (by norm_num [polyR])

/-! ## Byte-level packet operations

DSU packets are byte buffers (`bytearray` in the source).  The CRC field
occupies bytes 8-11, little-endian.  `_create_*_packet` zero the field,
compute the CRC over the whole buffer, and write it back little-endian. -/

/-- Little-endian 16-bit field, as written by `struct.pack_into('<H', ...)`. -/
def le16 (v : Nat) : List Nat := [v % 256, v / 256 % 256]

/-- Little-endian 32-bit field, as written by `struct.pack_into('<I', ...)`. -/
def le32 (v : Nat) : List Nat := [v % 256, v / 256 % 256, v / 65536 % 256, v / 16777216 % 256]

/-- Read a little-endian u32 at `off` (as `struct.unpack('<I', data[off:off+4])`). -/
def readLE32 (p : List Nat) (off : Nat) : Nat :=
  p.getD off 0 + 256 * p.getD (off + 1) 0 + 65536 * p.getD (off + 2) 0 +
    16777216 * p.getD (off + 3) 0

/-- Write a little-endian u32 at `off` into a byte buffer. -/
def writeLE32 (p : List Nat) (off v : Nat) : List Nat :=
  (((p.set off (v % 256)).set (off + 1) (v / 256 % 256)).set
      (off + 2) (v / 65536 % 256)).set (off + 3) (v / 16777216 % 256)

/-- Embeds `packet[8:12] = b'\x00\x00\x00\x00'`: the packet with its CRC field zeroed. -/
def zeroCRCField (p : List Nat) : List Nat :=
  (((p.set 8 0).set 9 0).set 10 0).set 11 0

/-- The CRC finalization shared by `_create_pad_info_packet`,
`_create_pad_data_packet` and `_respond_version`: compute the CRC32 over
the packet with bytes 8-11 zeroed and store it there little-endian. -/
def finalizeCRC (p : List Nat) : List Nat := writeLE32 p 8 (crc32 (zeroCRCField p))

/-- Modelled from the spec: DSU packet CRC verification ("verification
succeeds iff the embedded CRC equals `crc32(packet with CRC field
zeroed)`"); the server itself only produces packets and never verifies
inbound ones. -/
def verifyPacket (p : List Nat) : Prop := readLE32 p 8 = crc32 (zeroCRCField p)

instance (p : List Nat) : Decidable (verifyPacket p) := by
  unfold verifyPacket; infer_instance

/-- Flip bit `b` (0-7) of byte `k` of a packet. -/
def flipBit (p : List Nat) (k b : Nat) : List Nat :=
  p.set k (p.getD k 0 ^^^ (1 <<< b))

theorem byteBits_length (c : Nat) : (byteBits c).length = 8 := by
  simp [byteBits]

theorem bitsOfBytes_append (p q : List Nat) :
    bitsOfBytes (p ++ q) = bitsOfBytes p ++ bitsOfBytes q := by
  simp [bitsOfBytes]

theorem bitsOfBytes_cons (c : Nat) (p : List Nat) :
    bitsOfBytes (c :: p) = byteBits c ++ bitsOfBytes p := by
  simp [bitsOfBytes, byteBits]

theorem byteBits_xor (c x : Nat) :
    byteBits (c ^^^ x) = List.zipWith Bool.xor (byteBits c) (byteBits x) := by
  simp [byteBits, List.zipWith_map, Nat.testBit_xor]

theorem byteBits_one_shiftLeft (b : Nat) (hb : b < 8) :
    byteBits (1 <<< b) = List.replicate b false ++ true :: List.replicate (7 - b) false := by
  interval_cases b <;> rfl

theorem zipWith_xor_replicate_false (l : List Bool) :
    List.zipWith Bool.xor l (List.replicate l.length false) = l := by
  induction l with
  | nil => rfl
  | cons a t ih => simp [List.replicate_succ, ih]

/-- Cancellation: `a = a ^^^ d` forces `d = 0`. -/
theorem xor_eq_self_iff_zero (a d : Nat) (h : a = a ^^^ d) : d = 0 := by
  have h2 := congrArg (fun z => a ^^^ z) h
  simp only [← Nat.xor_assoc, Nat.xor_self, Nat.zero_xor] at h2
  exact h2.symm

/-- Flipping a single bit of any byte buffer changes its CRC-32. -/
theorem crc32_flipBit_ne (p : List Nat) (k b : Nat) (hk : k < p.length) (hb : b < 8) :
    crc32 (flipBit p k b) ≠ crc32 p := by
  have hdecomp : p = p.take k ++ p.getD k 0 :: p.drop (k + 1) := by
    conv_lhs => rw [← List.take_append_drop k p]
    congr 1
    rw [List.getD_eq_getElem p 0 hk]
    exact List.drop_eq_getElem_cons hk
  have hflip : flipBit p k b = p.take k ++ (p.getD k 0 ^^^ (1 <<< b)) :: p.drop (k + 1) := by
    unfold flipBit
    rw [List.set_eq_take_append_cons_drop, if_pos hk]
  set A := bitsOfBytes (p.take k) with hA
  set B := bitsOfBytes (p.drop (k + 1)) with hB
  set c := p.getD k 0 with hc
  -- the one-hot error pattern, aligned with bit b of byte k
  set E : List Bool := List.replicate A.length false ++
      ((List.replicate b false ++ true :: List.replicate (7 - b) false) ++
        List.replicate B.length false) with hE
  have hmid : (List.replicate b false ++ true :: List.replicate (7 - b) false).length = 8 := by
    simp only [List.length_append, List.length_cons, List.length_replicate]
    omega
  have hzip : List.zipWith Bool.xor (bitsOfBytes p) E = bitsOfBytes (flipBit p k b) := by
    conv_lhs => rw [hdecomp]
    rw [hflip, bitsOfBytes_append, bitsOfBytes_cons, bitsOfBytes_append, bitsOfBytes_cons]
    rw [← hA, ← hB, hE]
    rw [List.zipWith_append _ _ _ _ _ (by simp)]
    rw [zipWith_xor_replicate_false]
    congr 1
    rw [List.zipWith_append _ _ _ _ _ (by rw [byteBits_length, hmid])]
    rw [zipWith_xor_replicate_false]
    congr 1
    rw [← byteBits_one_shiftLeft b hb, ← byteBits_xor]
  have hlen : (bitsOfBytes p).length = E.length := by
    conv_lhs => rw [hdecomp]
    rw [bitsOfBytes_append, bitsOfBytes_cons, ← hA, ← hB, hE]
    simp only [List.length_append, List.length_cons, List.length_replicate, byteBits_length]
    omega
  have key : crcRaw 0xFFFFFFFF (List.zipWith Bool.xor (bitsOfBytes p) E)
      = crcRaw 0xFFFFFFFF (bitsOfBytes p) ^^^ crcRaw 0 E := by
    have h2 := crcRaw_xor (bitsOfBytes p) E hlen 0xFFFFFFFF 0
    simpa using h2
  have hsplit : crc32 (flipBit p k b) = crc32 p ^^^ crcRaw 0 E := by
    unfold crc32
    rw [← hzip, key, Nat.xor_assoc, Nat.xor_comm (crcRaw 0 E), ← Nat.xor_assoc]
  have hD : crcRaw 0 E ≠ 0 := by
    have hE2 : E = List.replicate (A.length + b) false ++
        true :: List.replicate (7 - b + B.length) false := by
      rw [hE, List.replicate_add A.length b false, List.replicate_add (7 - b) B.length false]
      simp [List.append_assoc]
      rw [List.replicate_add A.length b false, List.append_assoc]
    rw [hE2]
    exact crcRaw_onehot_ne_zero _ _
  intro hcontra
  rw [hcontra] at hsplit
  exact hD (xor_eq_self_iff_zero _ _ hsplit)

theorem getD_set_ne (l : List Nat) (i j a d : Nat) (h : i ≠ j) :
    (l.set i a).getD j d = l.getD j d := by
  simp [List.getD, List.getElem?_set_ne h]

theorem getD_set_self (l : List Nat) (i a d : Nat) (h : i < l.length) :
    (l.set i a).getD i d = a := by
  simp [List.getD, List.getElem?_set_self, h]

theorem length_zeroCRCField (p : List Nat) : (zeroCRCField p).length = p.length := by
  simp [zeroCRCField]

theorem length_writeLE32 (p : List Nat) (off v : Nat) :
    (writeLE32 p off v).length = p.length := by
  simp [writeLE32]

theorem length_finalizeCRC (p : List Nat) : (finalizeCRC p).length = p.length := by
  simp [finalizeCRC, length_writeLE32]

theorem length_flipBit (p : List Nat) (k b : Nat) : (flipBit p k b).length = p.length := by
  simp [flipBit]

/-- Zeroing the CRC field absorbs any earlier write to one of its bytes. -/
theorem zeroCRC_set_inner (p : List Nat) (a i : Nat) (h8 : 8 ≤ i) (h12 : i < 12) :
    zeroCRCField (p.set i a) = zeroCRCField p := by
  unfold zeroCRCField
  interval_cases i
  · rw [List.set_set]
  · rw [show ((p.set 9 a).set 8 0) = ((p.set 8 0).set 9 a) from List.set_comm _ _ _ (by omega),
      List.set_set]
  · rw [show ((p.set 10 a).set 8 0) = ((p.set 8 0).set 10 a) from List.set_comm _ _ _ (by omega),
      show (((p.set 8 0).set 10 a).set 9 0) = (((p.set 8 0).set 9 0).set 10 a) from
        List.set_comm _ _ _ (by omega),
      List.set_set]
  · rw [show ((p.set 11 a).set 8 0) = ((p.set 8 0).set 11 a) from List.set_comm _ _ _ (by omega),
      show (((p.set 8 0).set 11 a).set 9 0) = (((p.set 8 0).set 9 0).set 11 a) from
        List.set_comm _ _ _ (by omega),
      show ((((p.set 8 0).set 9 0).set 11 a).set 10 0)
          = ((((p.set 8 0).set 9 0).set 10 0).set 11 a) from List.set_comm _ _ _ (by omega),
      List.set_set]

/-- Zeroing the CRC field commutes with writes outside it. -/
theorem zeroCRC_set_outer (p : List Nat) (a k : Nat) (h : k < 8 ∨ 12 ≤ k) :
    zeroCRCField (p.set k a) = (zeroCRCField p).set k a := by
  unfold zeroCRCField
  rw [show ((p.set k a).set 8 0) = ((p.set 8 0).set k a) from List.set_comm _ _ _ (by omega),
    show (((p.set 8 0).set k a).set 9 0) = (((p.set 8 0).set 9 0).set k a) from
      List.set_comm _ _ _ (by omega),
    show ((((p.set 8 0).set 9 0).set k a).set 10 0)
        = ((((p.set 8 0).set 9 0).set 10 0).set k a) from List.set_comm _ _ _ (by omega),
    show (((((p.set 8 0).set 9 0).set 10 0).set k a).set 11 0)
        = (((((p.set 8 0).set 9 0).set 10 0).set 11 0).set k a) from
      List.set_comm _ _ _ (by omega)]

theorem getD_zeroCRC_outer (p : List Nat) (k d : Nat) (h : k < 8 ∨ 12 ≤ k) :
    (zeroCRCField p).getD k d = p.getD k d := by
  unfold zeroCRCField
  rw [getD_set_ne _ _ _ _ _ (by omega), getD_set_ne _ _ _ _ _ (by omega),
    getD_set_ne _ _ _ _ _ (by omega), getD_set_ne _ _ _ _ _ (by omega)]

/-- Writing the CRC back and re-zeroing the field recovers the zeroed packet. -/
theorem zeroCRC_writeLE32 (p : List Nat) (v : Nat) :
    zeroCRCField (writeLE32 p 8 v) = zeroCRCField p := by
  unfold writeLE32
  rw [zeroCRC_set_inner _ _ _ (by omega) (by omega), zeroCRC_set_inner _ _ _ (by omega) (by omega),
    zeroCRC_set_inner _ _ _ (by omega) (by omega), zeroCRC_set_inner _ _ _ (by omega) (by omega)]

theorem getD_writeLE32_at8 (p : List Nat) (v : Nat) (h : 8 < p.length) :
    (writeLE32 p 8 v).getD 8 0 = v % 256 := by
  unfold writeLE32
  rw [getD_set_ne _ _ _ _ _ (by omega), getD_set_ne _ _ _ _ _ (by omega),
    getD_set_ne _ _ _ _ _ (by omega), getD_set_self _ _ _ _ h]

theorem getD_writeLE32_at9 (p : List Nat) (v : Nat) (h : 9 < p.length) :
    (writeLE32 p 8 v).getD 9 0 = v / 256 % 256 := by
  unfold writeLE32
  rw [getD_set_ne _ _ _ _ _ (by omega), getD_set_ne _ _ _ _ _ (by omega),
    getD_set_self _ _ _ _ (by simp only [List.length_set]; omega)]

theorem getD_writeLE32_at10 (p : List Nat) (v : Nat) (h : 10 < p.length) :
    (writeLE32 p 8 v).getD 10 0 = v / 65536 % 256 := by
  unfold writeLE32
  rw [getD_set_ne _ _ _ _ _ (by omega),
    getD_set_self _ _ _ _ (by simp only [List.length_set]; omega)]

theorem getD_writeLE32_at11 (p : List Nat) (v : Nat) (h : 11 < p.length) :
    (writeLE32 p 8 v).getD 11 0 = v / 16777216 % 256 := by
  unfold writeLE32
  rw [getD_set_self _ _ _ _ (by simp only [List.length_set]; omega)]

theorem getD_writeLE32_outer (p : List Nat) (v j d : Nat) (h : j < 8 ∨ 12 ≤ j) :
    (writeLE32 p 8 v).getD j d = p.getD j d := by
  unfold writeLE32
  rw [getD_set_ne _ _ _ _ _ (by omega), getD_set_ne _ _ _ _ _ (by omega),
    getD_set_ne _ _ _ _ _ (by omega), getD_set_ne _ _ _ _ _ (by omega)]

/-- Reading back a little-endian u32 written below 2^32. -/
theorem readLE32_writeLE32 (p : List Nat) (v : Nat) (hlen : 12 ≤ p.length) (hv : v < 2 ^ 32) :
    readLE32 (writeLE32 p 8 v) 8 = v := by
  unfold readLE32
  rw [show (8 + 1) = 9 from rfl, show (8 + 2) = 10 from rfl, show (8 + 3) = 11 from rfl]
  rw [getD_writeLE32_at8 p v (by omega), getD_writeLE32_at9 p v (by omega),
    getD_writeLE32_at10 p v (by omega), getD_writeLE32_at11 p v (by omega)]
  omega

/-- Every finalized packet verifies: the embedded CRC at bytes 8-11 is
exactly the CRC-32 of the packet with the CRC field zeroed. -/
theorem verify_finalizeCRC (p : List Nat) (hlen : 12 ≤ p.length) :
    verifyPacket (finalizeCRC p) := by
  unfold verifyPacket finalizeCRC
  rw [zeroCRC_writeLE32, readLE32_writeLE32 p _ hlen (crc32_lt _)]

theorem getD_finalizeCRC_crcfield (p : List Nat) (hlen : 12 ≤ p.length) :
    ∀ j, 8 ≤ j → j < 12 → (finalizeCRC p).getD j 0 < 256 := by
  intro j hj8 hj12
  unfold finalizeCRC
  interval_cases j
  · rw [getD_writeLE32_at8 p _ (by omega)]; omega
  · rw [getD_writeLE32_at9 p _ (by omega)]; omega
  · rw [getD_writeLE32_at10 p _ (by omega)]; omega
  · rw [getD_writeLE32_at11 p _ (by omega)]; omega

/-- Flipping a bit inside the stored CRC field changes the value read back. -/
theorem readLE32_flip_infield_ne (p : List Nat) (k b : Nat) (h8 : 8 ≤ k) (h12 : k < 12)
    (hk : k < p.length) (hb : b < 8)
    (hd : ∀ j, 8 ≤ j → j < 12 → p.getD j 0 < 256) :
    readLE32 (flipBit p k b) 8 ≠ readLE32 p 8 := by
  have h256 : (256 : Nat) = 2 ^ 8 := by norm_num
  have hplt : (1 <<< b : Nat) < 256 := by
    rw [Nat.one_shiftLeft b, h256]
    exact Nat.pow_lt_pow_right (by omega) hb
  have hne : p.getD k 0 ^^^ (1 <<< b) ≠ p.getD k 0 := by
    intro heq
    have hz : (1 <<< b : Nat) = 0 := xor_eq_self_iff_zero _ _ heq.symm
    have : (1 <<< b : Nat) = 2 ^ b := Nat.one_shiftLeft b
    have : (0:Nat) < 2 ^ b := Nat.pos_pow_of_pos b (by omega)
    omega
  have hnewlt : p.getD k 0 ^^^ (1 <<< b) < 256 := by
    have h1 : p.getD k 0 < 2 ^ 8 := h256 ▸ hd k h8 h12
    have h2 : (1 <<< b : Nat) < 2 ^ 8 := h256 ▸ hplt
    have h3 := Nat.xor_lt_two_pow h1 h2
    omega
  have hd8 := hd 8 (by omega) (by omega)
  have hd9 := hd 9 (by omega) (by omega)
  have hd10 := hd 10 (by omega) (by omega)
  have hd11 := hd 11 (by omega) (by omega)
  unfold readLE32 flipBit
  rw [show (8 + 1) = 9 from rfl, show (8 + 2) = 10 from rfl, show (8 + 3) = 11 from rfl]
  interval_cases k
  · rw [getD_set_self _ _ _ _ hk, getD_set_ne _ _ _ _ _ (by omega),
      getD_set_ne _ _ _ _ _ (by omega), getD_set_ne _ _ _ _ _ (by omega)]
    omega
  · rw [getD_set_ne _ _ _ _ _ (by omega), getD_set_self _ _ _ _ hk,
      getD_set_ne _ _ _ _ _ (by omega), getD_set_ne _ _ _ _ _ (by omega)]
    omega
  · rw [getD_set_ne _ _ _ _ _ (by omega), getD_set_ne _ _ _ _ _ (by omega),
      getD_set_self _ _ _ _ hk, getD_set_ne _ _ _ _ _ (by omega)]
    omega
  · rw [getD_set_ne _ _ _ _ _ (by omega), getD_set_ne _ _ _ _ _ (by omega),
      getD_set_ne _ _ _ _ _ (by omega), getD_set_self _ _ _ _ hk]
    omega

/-- A verifying packet stops verifying after any single bit flip. -/
theorem verify_flip_false (p : List Nat)
    (hd : ∀ j, 8 ≤ j → j < 12 → p.getD j 0 < 256)
    (hv : verifyPacket p) (k b : Nat) (hk : k < p.length) (hb : b < 8) :
    ¬ verifyPacket (flipBit p k b) := by
  intro hv2
  unfold verifyPacket at hv hv2
  by_cases hin : 8 ≤ k ∧ k < 12
  · -- a CRC-field byte flipped: zeroed packet unchanged, embedded CRC changed
    have hz : zeroCRCField (flipBit p k b) = zeroCRCField p := by
      unfold flipBit
      exact zeroCRC_set_inner _ _ _ hin.1 hin.2
    rw [hz] at hv2
    exact readLE32_flip_infield_ne p k b hin.1 hin.2 hk hb hd (hv2.trans hv.symm)
  · -- a payload byte flipped: embedded CRC unchanged, CRC of zeroed packet changes
    have hk8 : k < 8 ∨ 12 ≤ k := by omega
    have hz : zeroCRCField (flipBit p k b) = flipBit (zeroCRCField p) k b := by
      unfold flipBit
      rw [zeroCRC_set_outer _ _ _ hk8, getD_zeroCRC_outer _ _ _ hk8]
    have hr : readLE32 (flipBit p k b) 8 = readLE32 p 8 := by
      unfold readLE32 flipBit
      rw [show (8 + 1) = 9 from rfl, show (8 + 2) = 10 from rfl, show (8 + 3) = 11 from rfl]
      rw [getD_set_ne _ _ _ _ _ (by omega), getD_set_ne _ _ _ _ _ (by omega),
        getD_set_ne _ _ _ _ _ (by omega), getD_set_ne _ _ _ _ _ (by omega)]
    rw [hz, hr] at hv2
    have hkz : k < (zeroCRCField p).length := by rw [length_zeroCRCField]; exact hk
    exact crc32_flipBit_ne (zeroCRCField p) k b hkz hb (hv2.symm.trans hv)

/-! ## Data model

Canonical controller state (`src/main.py`): a fixed button vocabulary,
four signed stick offsets and two trigger magnitudes. -/

/-- The fixed button vocabulary of the canonical `ControllerState`. -/
inductive Button where
  | A | B | X | Y | L | R | Z | ZL | Start | Home | Capture
  | DpadUp | DpadDown | DpadLeft | DpadRight
deriving DecidableEq

/-- The parsed state dictionary handed to the DSU server.  The stick
pair is recorded as its circularly-normalized components: the source's
`normalize_stick_pair` computes a floating-point square root, so the
packet builder is parameterized by its output (which is exact at the
origin, where the code returns `(0.0, 0.0)` without a square root). -/
structure PadState where
  buttons : Button → Bool
  mainNormX : ℚ
  mainNormY : ℚ
  cNormX : ℚ
  cNormY : ℚ
  trigger_l : ℤ
  trigger_r : ℤ

/-- The mutable state of a `DSUServer` instance: `self.server_id`,
`self.packet_counter`, the pending-press latch `self.pending_presses`
and `self.last_state`. -/
structure DSUServerState where
  server_id : Nat
  packet_counter : Nat
  pending_presses : Button → Bool
  last_state : Option PadState

/-- Embeds `DSUServer.update(state)`: every button currently true is added to
the pending-press latch, and the state is stored wholesale. -/
def dsu_update (srv : DSUServerState) (st : PadState) : DSUServerState :=
  { srv with
    pending_presses := fun b => srv.pending_presses b || st.buttons b
    last_state := some st }

/-- The button map used when packing a Pad Data packet: the live state
with every latched pending press forced to true. -/
def effectiveButtons (pending live : Button → Bool) : Button → Bool :=
  fun b => live b || pending b

/-- Yields `1 << n` when the button is held, `0` otherwise (the `|=` pattern). -/
def bitVal (b : Bool) (n : Nat) : Nat := if b then 1 <<< n else 0

/-- Pad Data byte 36: D-pad, Options (Start), R3 (Z). -/
def btnByte36 (bt : Button → Bool) : Nat :=
  bitVal (bt .DpadUp) 4 ||| bitVal (bt .DpadRight) 5 ||| bitVal (bt .DpadDown) 6 |||
    bitVal (bt .DpadLeft) 7 ||| bitVal (bt .Start) 3 ||| bitVal (bt .Z) 2

/-- Pad Data byte 37: face buttons and shoulders (DualShock layout). -/
def btnByte37 (bt : Button → Bool) : Nat :=
  bitVal (bt .X) 7 ||| bitVal (bt .A) 6 ||| bitVal (bt .B) 5 ||| bitVal (bt .Y) 4 |||
    bitVal (bt .R) 3 ||| bitVal (bt .L) 2 ||| bitVal (bt .ZL) 0

/-- Pad Data byte 38: PS button (Home). -/
def btnByte38 (bt : Button → Bool) : Nat := bitVal (bt .Home) 0

/-- Pad Data byte 39: touchpad click (Capture). -/
def btnByte39 (bt : Button → Bool) : Nat := bitVal (bt .Capture) 0

/-- Analog shadow byte: 255 when pressed, 0 otherwise. -/
def analogBtn (b : Bool) : Nat := if b then 255 else 0

/-- Python `int(...)` on an exact value: truncation toward zero. -/
def pyInt (q : ℚ) : ℤ := q.num.tdiv (q.den : ℤ)

/-- Embeds `stick_value_to_byte`: `int(normalized_value * 127 + 128) & 0xFF`. -/
def stick_value_to_byte (v : ℚ) : Nat := ((pyInt (v * 127 + 128)) % 256).toNat

/-- Trigger byte: `max(0, min(255, int(t))) & 0xFF`. -/
def clampTrigger (t : ℤ) : Nat := ((max 0 (min 255 t)) % 256).toNat

/-- The 100-byte Pad Data packet body before CRC finalization
(`_create_pad_data_packet` writes into a zero-cleared 100-byte buffer;
bytes 8-11 stay zero until the CRC is stored). -/
def padDataBody (server_id padId counter : Nat) (bt : Button → Bool)
    (mnx mny cnx cny : ℚ) (tl tr : ℤ) : List Nat :=
  [0x44, 0x53, 0x55, 0x53] ++ le16 1001 ++ le16 84 ++ [0, 0, 0, 0] ++ le32 server_id ++
    le32 0x00100002 ++ [padId, 2, 0x02, 0x01] ++ [0x00, 0x11, 0x22, 0x33, 0x44, padId] ++
    [0x05, 0x01] ++ le32 counter ++
    [btnByte36 bt, btnByte37 bt, btnByte38 bt, btnByte39 bt] ++
    [stick_value_to_byte mnx, stick_value_to_byte (-mny),
      stick_value_to_byte cnx, stick_value_to_byte (-cny)] ++
    [analogBtn (bt .DpadLeft), analogBtn (bt .DpadDown), analogBtn (bt .DpadRight),
      analogBtn (bt .DpadUp), analogBtn (bt .Y), analogBtn (bt .B), analogBtn (bt .A),
      analogBtn (bt .X), analogBtn (bt .R), analogBtn (bt .L)] ++
    [clampTrigger tl, clampTrigger tr] ++
    List.replicate 44 0

/-- Embeds `_create_pad_data_packet(state, pad_id)`.  The counter is
incremented first; `struct.pack_into('<I', packet, 32, counter)` raises
`struct.error` for values ≥ 2^32, in which case no packet is produced,
the increment has already happened, and the latch is left uncleared
(the `pending_presses.clear()` sits after the CRC step).  On success
the latch is cleared exactly once. -/
def create_pad_data_packet (srv : DSUServerState) (st : PadState) (padId : Nat) :
    Option (List Nat) × DSUServerState :=
  let bt := effectiveButtons srv.pending_presses st.buttons
  let c := srv.packet_counter + 1
  if c < 2 ^ 32 then
    (some (finalizeCRC (padDataBody srv.server_id padId c bt
        st.mainNormX st.mainNormY st.cNormX st.cNormY st.trigger_l st.trigger_r)),
      { srv with packet_counter := c, pending_presses := fun _ => false })
  else
    (none, { srv with packet_counter := c })

/-- The 32-byte Pad Info packet body before CRC finalization.  Note:
the source hard-codes `packet[21] = 0x02` ("Connected"); the `connected`
parameter only selects the battery byte (`packet[30]`). -/
def padInfoBody (server_id padId : Nat) (connected : Bool) : List Nat :=
  [0x44, 0x53, 0x55, 0x53] ++ le16 1001 ++ le16 16 ++ [0, 0, 0, 0] ++ le32 server_id ++
    le32 0x00100001 ++ [padId, 0x02, 0x02, 0x01] ++ [0x00, 0x11, 0x22, 0x33, 0x44, padId] ++
    [if connected then 0x05 else 0x00, 0x00]

/-- Embeds `_create_pad_info_packet(pad_id, connected, server_id)`. -/
def create_pad_info_packet (server_id padId : Nat) (connected : Bool) : List Nat :=
  finalizeCRC (padInfoBody server_id padId connected)

/-- Embeds `struct.unpack('<i', ...)`: the u32 read as a signed 32-bit value. -/
def readLE32signed (p : List Nat) (off : Nat) : ℤ :=
  let v := readLE32 p off
  if v < 2 ^ 31 then (v : ℤ) else (v : ℤ) - 2 ^ 32

/-- Embeds `_respond_pad_info(data, addr)`: one Pad Info packet per requested
slot; `is_connected = (slot_id == 0)`. -/
def respond_pad_info (server_id : Nat) (data : List Nat) : List (List Nat) :=
  if 24 ≤ data.length then
    let numSlots := readLE32signed data 20
    let reqServerId := if 16 ≤ data.length then readLE32 data 12 else server_id
    let slots :=
      if (24 + numSlots : ℤ) ≤ (data.length : ℤ) then
        (List.range numSlots.toNat).map (fun i => data.getD (24 + i) 0)
      else [0]
    slots.map (fun slotId => create_pad_info_packet reqServerId slotId (slotId == 0))
  else []

/-- Embeds `_respond_version(data, addr)`: the 24-byte version response. -/
def respond_version (server_id : Nat) (data : List Nat) : List Nat :=
  let sid := if 16 ≤ data.length then readLE32 data 12 else server_id
  finalizeCRC ([0x44, 0x53, 0x55, 0x53] ++ le16 1001 ++ le16 8 ++ [0, 0, 0, 0] ++ le32 sid ++
    le32 0x00100000 ++ le16 1001 ++ [0, 0])

/-! ## Port binding (`DSUServer.start`) -/

/-- Embeds `DSUServer.DSU_PORT`. -/
def DSU_PORT : Nat := 26760

/-- Embeds `DSUServer.DSU_PORT_MAX_ATTEMPTS`. -/
def DSU_PORT_MAX_ATTEMPTS : Nat := 5

/-- The `start` retry loop: try ports `26760..26764` in order and bind
the first free one.  A bind failure with errno 48 ("address already in
use") is modelled by the `occupied` predicate - the only failure kind
the loop continues past.  Returns the port actually bound and reported
(`self.port`), or `none` when the range is exhausted (`start` returns
`False`, a fatal startup error). -/
def start_bind (occupied : Nat → Bool) : Option Nat :=
  ((List.range DSU_PORT_MAX_ATTEMPTS).map (fun k => DSU_PORT + k)).find?
    (fun p => !occupied p)

/-! ## The `update` call signature (claim C5) -/

/-- The declared parameters of `DSUServer.update` after `self`:
`def update(self, state: Dict)` - exactly one, and no `**kwargs`. -/
def update_param_names : List String := ["state"]

/-- The keyword arguments used by `main.py`'s USB `read_loop` and the
BLE `_notification_handler` when calling `dsu_server.update(...)`. -/
def dsu_push_kwargs : List String := ["pad_id", "connection_type"]

/-- Python call binding: the call raises `TypeError` before the body
runs unless every keyword argument names a declared parameter. -/
def kwargs_accepted (params kwargs : List String) : Bool :=
  kwargs.all (fun k => params.contains k)

/-- One `dsu_server.update(raw_state, pad_id=..., connection_type=...)`
attempt from a transport pipeline.  The surrounding `try/except`
swallows the `TypeError`, so the server state is unchanged whenever the
keyword arguments are rejected. -/
def dsu_push_attempt (srv : DSUServerState) (st : PadState) : DSUServerState :=
  if kwargs_accepted update_param_names dsu_push_kwargs then dsu_update srv st else srv

/-! ## Report decoder (`src/main.py`) -/

/-- Per-connection stick calibration (`self.calibration`); the centers
are only read once `calibrated` is true. -/
structure Calibration where
  main_x_center : Nat
  main_y_center : Nat
  c_x_center : Nat
  c_y_center : Nat
  calibrated : Bool

/-- The decoder output: a canonical controller state. -/
structure Parsed where
  buttons : Button → Bool
  trigger_l : ℤ
  trigger_r : ℤ
  main_x : ℤ
  main_y : ℤ
  c_x : ℤ
  c_y : ℤ
  main_x_raw : Nat
  main_y_raw : Nat
  c_x_raw : Nat
  c_y_raw : Nat

/-- Embeds `_stick_12bit_from_bytes(b0, b1, b2)`: 12-bit nibble-packed pair. -/
def stick_12bit_from_bytes (b0 b1 b2 : Nat) : Nat × Nat :=
  (b0 ||| ((b1 &&& 0x0F) <<< 8), (b1 >>> 4) ||| (b2 <<< 4))

/-- The USB ("original discovered format") button bit table. -/
def usbButtons (b3 b4 b5 : Nat) : Button → Bool
  | .B => b3 &&& 0x01 != 0
  | .A => b3 &&& 0x02 != 0
  | .Y => b3 &&& 0x04 != 0
  | .X => b3 &&& 0x08 != 0
  | .R => b3 &&& 0x10 != 0
  | .Z => b3 &&& 0x20 != 0
  | .Start => b3 &&& 0x40 != 0
  | .DpadDown => b4 &&& 0x01 != 0
  | .DpadRight => b4 &&& 0x02 != 0
  | .DpadLeft => b4 &&& 0x04 != 0
  | .DpadUp => b4 &&& 0x08 != 0
  | .L => b4 &&& 0x10 != 0
  | .ZL => b4 &&& 0x20 != 0
  | .Home => b5 &&& 0x01 != 0
  | .Capture => b5 &&& 0x02 != 0

/-- The Nintendo standard (BLE) button bit table. -/
def nintendoButtons (b3 b4 b5 : Nat) : Button → Bool
  | .Y => b3 &&& 0x01 != 0
  | .X => b3 &&& 0x02 != 0
  | .B => b3 &&& 0x04 != 0
  | .A => b3 &&& 0x08 != 0
  | .R => b3 &&& 0x10 != 0
  | .Z => b3 &&& 0x20 != 0
  | .Start => b4 &&& 0x02 != 0
  | .Home => b4 &&& 0x10 != 0
  | .Capture => b4 &&& 0x20 != 0
  | .DpadDown => b5 &&& 0x01 != 0
  | .DpadUp => b5 &&& 0x02 != 0
  | .DpadRight => b5 &&& 0x04 != 0
  | .DpadLeft => b5 &&& 0x08 != 0
  | .L => b5 &&& 0x40 != 0
  | .ZL => b5 &&& 0x80 != 0

/-- Calibration application: raw 12-bit value minus the stored center
when calibrated, minus 2048 otherwise. -/
def calOffset (calibrated : Bool) (raw center : Nat) : ℤ :=
  if calibrated then (raw : ℤ) - (center : ℤ) else (raw : ℤ) - 2048

/-- Embeds `parse_input(data, report_id_offset, ble_layout)`: the USB/standard
decoder.  Returns `none` for buffers shorter than `12 + offset` bytes.
(The source re-checks `len(data) >= 12 + o` before the stick block; that
inner guard always holds after the top one, so the zero-stick fallback
is dead code.) -/
def parse_input (cal : Calibration) (data : List Nat) (report_id_offset : Nat)
    (ble_layout : Bool) : Option Parsed :=
  let o := report_id_offset
  if data.length < 12 + o then none else
  let buttons :=
    if ble_layout then nintendoButtons (data.getD (3 + o) 0) (data.getD (4 + o) 0) (data.getD (5 + o) 0)
    else usbButtons (data.getD (3 + o) 0) (data.getD (4 + o) 0) (data.getD (5 + o) 0)
  let trigger_l : ℤ := if 13 + o < data.length then (data.getD (13 + o) 0 : ℤ) else 0
  let trigger_r : ℤ := if 14 + o < data.length then (data.getD (14 + o) 0 : ℤ) else 0
  let main_x_raw := data.getD (6 + o) 0 ||| ((data.getD (7 + o) 0 &&& 0x0F) <<< 8)
  let main_y_raw := (data.getD (7 + o) 0 >>> 4) ||| (data.getD (8 + o) 0 <<< 4)
  let c_x_raw := data.getD (9 + o) 0 ||| ((data.getD (10 + o) 0 &&& 0x0F) <<< 8)
  let c_y_raw := (data.getD (10 + o) 0 >>> 4) ||| (data.getD (11 + o) 0 <<< 4)
  some
    { buttons := buttons
      trigger_l := trigger_l
      trigger_r := trigger_r
      main_x := calOffset cal.calibrated main_x_raw cal.main_x_center
      main_y := calOffset cal.calibrated main_y_raw cal.main_y_center
      c_x := calOffset cal.calibrated c_x_raw cal.c_x_center
      c_y := calOffset cal.calibrated c_y_raw cal.c_y_center
      main_x_raw := main_x_raw
      main_y_raw := main_y_raw
      c_x_raw := c_x_raw
      c_y_raw := c_y_raw }

/-- Embeds `self.ble_report_layout`: 'auto' | 'standard' | 'reordered' | '0x3f'. -/
inductive BLELayout where
  | auto | standard | reordered | simple3F
deriving DecidableEq

/-- Embeds `parse_ble_input(data)`: the three BLE branches (0x3F simple report,
reordered sticks-then-buttons, and standard 0x30). -/
def parse_ble_input (cal : Calibration) (layout : BLELayout) (report_id_offset : Nat)
    (data : List Nat) : Option Parsed :=
  if data.length < 12 then none else
  let report_id := data.getD 0 0
  if report_id == 0x3F && (layout == .auto || layout == .simple3F) then
    let b1 := data.getD 1 0
    let b2 := data.getD 2 0
    let buttons : Button → Bool := fun btn =>
      match btn with
      | .DpadDown => b1 &&& 0x01 != 0
      | .DpadRight => b1 &&& 0x02 != 0
      | .DpadLeft => b1 &&& 0x04 != 0
      | .DpadUp => b1 &&& 0x08 != 0
      | .Start => b2 &&& 0x02 != 0
      | .Home => b2 &&& 0x10 != 0
      | .Capture => b2 &&& 0x20 != 0
      | .L => b2 &&& 0x40 != 0
      | .Z => b2 &&& 0x80 != 0
      | _ => false
    let main_x_raw := data.getD 4 0 ||| (data.getD 5 0 <<< 8)
    let main_y_raw := data.getD 6 0 ||| (data.getD 7 0 <<< 8)
    let c_x_raw := data.getD 8 0 ||| (data.getD 9 0 <<< 8)
    let c_y_raw := data.getD 10 0 ||| (data.getD 11 0 <<< 8)
    some
      { buttons := buttons
        trigger_l := if buttons .L then 255 else 0
        trigger_r := if buttons .Z then 255 else 0
        main_x := (main_x_raw : ℤ) - 32768
        main_y := (main_y_raw : ℤ) - 32768
        c_x := (c_x_raw : ℤ) - 32768
        c_y := (c_y_raw : ℤ) - 32768
        main_x_raw := main_x_raw
        main_y_raw := main_y_raw
        c_x_raw := c_x_raw
        c_y_raw := c_y_raw }
  else if (layout == .auto || layout == .reordered) && 12 ≤ data.length then
    let buttons := nintendoButtons (data.getD 9 0) (data.getD 10 0) (data.getD 11 0)
    let mainPair := stick_12bit_from_bytes (data.getD 3 0) (data.getD 4 0) (data.getD 5 0)
    let cPair := stick_12bit_from_bytes (data.getD 6 0) (data.getD 7 0) (data.getD 8 0)
    some
      { buttons := buttons
        trigger_l := if buttons .ZL then 255 else 0
        trigger_r := if buttons .Z then 255 else 0
        main_x := calOffset cal.calibrated mainPair.1 cal.main_x_center
        main_y := calOffset cal.calibrated mainPair.2 cal.main_y_center
        c_x := calOffset cal.calibrated cPair.1 cal.c_x_center
        c_y := calOffset cal.calibrated cPair.2 cal.c_y_center
        main_x_raw := mainPair.1
        main_y_raw := mainPair.2
        c_x_raw := cPair.1
        c_y_raw := cPair.2 }
  else
    let o := report_id_offset
    if data.length < 12 + o then none else
    let buttons := nintendoButtons (data.getD (3 + o) 0) (data.getD (4 + o) 0) (data.getD (5 + o) 0)
    let mainPair := stick_12bit_from_bytes (data.getD (6 + o) 0) (data.getD (7 + o) 0) (data.getD (8 + o) 0)
    let cPair := stick_12bit_from_bytes (data.getD (9 + o) 0) (data.getD (10 + o) 0) (data.getD (11 + o) 0)
    some
      { buttons := buttons
        trigger_l := if buttons .ZL then 255 else 0
        trigger_r := if buttons .Z then 255 else 0
        main_x := calOffset cal.calibrated mainPair.1 cal.main_x_center
        main_y := calOffset cal.calibrated mainPair.2 cal.main_y_center
        c_x := calOffset cal.calibrated cPair.1 cal.c_x_center
        c_y := calOffset cal.calibrated cPair.2 cal.c_y_center
        main_x_raw := mainPair.1
        main_y_raw := mainPair.2
        c_x_raw := cPair.1
        c_y_raw := cPair.2 }

/-- The read loops keep the previous state when the decoder yields
nothing (`if parsed: self.current_state = parsed`). -/
def read_loop_keep (current res : Option Parsed) : Option Parsed :=
  match res with
  | some p => some p
  | none => current

/-! ## Calibration engine (`calibrate_sticks`) -/

/-- Embeds `calibrate_sticks`' default `num_samples`: the USB engine threshold. -/
def CALIBRATION_SAMPLES : Nat := 10

/-- The four 12-bit stick values sampled by `calibrate_sticks`. -/
def calib_extract (d : List Nat) : Nat × Nat × Nat × Nat :=
  (d.getD 6 0 ||| ((d.getD 7 0 &&& 0x0F) <<< 8),
   (d.getD 7 0 >>> 4) ||| (d.getD 8 0 <<< 4),
   d.getD 9 0 ||| ((d.getD 10 0 &&& 0x0F) <<< 8),
   (d.getD 10 0 >>> 4) ||| (d.getD 11 0 <<< 4))

/-- Embeds `calibrate_sticks(num_samples)` over the successful HID reads: keep
reads of at least 12 bytes, require at least 3 of them, store the
per-axis average and mark the profile calibrated.  (Python computes
`int(sum(...) / len(...))` through float division; `Nat` floor division
agrees whenever the float quotient is exact - in particular on the
identical-sample runs the calibration property is about.) -/
def calibrate_sticks (cal : Calibration) (reads : List (List Nat)) : Calibration :=
  if cal.calibrated then cal else
  let samples := reads.filterMap (fun d => if 12 ≤ d.length then some (calib_extract d) else none)
  if samples.length < 3 then cal else
  { main_x_center := (samples.map (fun t => t.1)).sum / samples.length
    main_y_center := (samples.map (fun t => t.2.1)).sum / samples.length
    c_x_center := (samples.map (fun t => t.2.2.1)).sum / samples.length
    c_y_center := (samples.map (fun t => t.2.2.2)).sum / samples.length
    calibrated := true }

/-- Modelled from the spec: the hardware-side nibble packing ("encoding
two 12-bit values across three bytes by splitting a byte's two 4-bit
halves between them"), the inverse the documented unpacking formula
expects.  The repository only unpacks. -/
def pack12 (x y : Nat) : Nat × Nat × Nat :=
  (x &&& 0xFF, ((x >>> 8) &&& 0x0F) ||| ((y &&& 0x0F) <<< 4), (y >>> 4) &&& 0xFF)

/-! ## Packet length and shape lemmas -/

theorem length_padDataBody (sid pid c : Nat) (bt : Button → Bool) (mnx mny cnx cny : ℚ)
    (tl tr : ℤ) : (padDataBody sid pid c bt mnx mny cnx cny tl tr).length = 100 := by
  simp [padDataBody, le16, le32]

theorem length_padInfoBody (sid pid : Nat) (c : Bool) :
    (padInfoBody sid pid c).length = 32 := by
  simp [padInfoBody, le16, le32]

theorem respond_version_eq (server_id : Nat) (data : List Nat) :
    respond_version server_id data = finalizeCRC ([0x44, 0x53, 0x55, 0x53] ++ le16 1001 ++
      le16 8 ++ [0, 0, 0, 0] ++
      le32 (if 16 ≤ data.length then readLE32 data 12 else server_id) ++
      le32 0x00100000 ++ le16 1001 ++ [0, 0]) := rfl

theorem length_version_body (sid : Nat) :
    ([0x44, 0x53, 0x55, 0x53] ++ le16 1001 ++ le16 8 ++ [0, 0, 0, 0] ++ le32 sid ++
      le32 0x00100000 ++ le16 1001 ++ [0, 0]).length = 24 := by
  simp [le16, le32]

theorem create_pad_data_some (srv : DSUServerState) (st : PadState) (padId : Nat)
    (pkt : List Nat) (h : (create_pad_data_packet srv st padId).1 = some pkt) :
    pkt = finalizeCRC (padDataBody srv.server_id padId (srv.packet_counter + 1)
      (effectiveButtons srv.pending_presses st.buttons)
      st.mainNormX st.mainNormY st.cNormX st.cNormY st.trigger_l st.trigger_r) := by
  unfold create_pad_data_packet at h
  by_cases hc : srv.packet_counter + 1 < 2 ^ 32
  · simp only [hc, if_pos] at h
    exact (Option.some.inj h).symm
  · simp only [hc, if_neg, if_false] at h
    simp at h

/-- Every finalized packet of length ≥ 12 fails verification after any
single bit flip. -/
theorem finalized_flip_fails (body : List Nat) (hlen : 12 ≤ body.length)
    (k b : Nat) (hk : k < body.length) (hb : b < 8) :
    ¬ verifyPacket (flipBit (finalizeCRC body) k b) :=
  verify_flip_false (finalizeCRC body) (getD_finalizeCRC_crcfield body hlen)
    (verify_finalizeCRC body hlen) k b (by rw [length_finalizeCRC]; exact hk) hb

/-- C1: every constructed DSU packet (Version, Pad Info, Pad Data)
embeds at bytes 8-11 the zlib CRC-32 of the whole packet with the CRC
field zeroed; verification succeeds exactly on that equality; and
flipping any single bit of a constructed packet makes verification
fail. -/
theorem crc_constructed_packets (server_id padId : Nat) (data : List Nat)
    (srv : DSUServerState) (st : PadState) :
    (∀ p : List Nat, verifyPacket p ↔ readLE32 p 8 = crc32 (zeroCRCField p)) ∧
    verifyPacket (respond_version server_id data) ∧
    (∀ pkt ∈ respond_pad_info server_id data, verifyPacket pkt) ∧
    (∀ pkt, (create_pad_data_packet srv st padId).1 = some pkt → verifyPacket pkt) ∧
    (∀ k b, k < 24 → b < 8 → ¬ verifyPacket (flipBit (respond_version server_id data) k b)) ∧
    (∀ pkt ∈ respond_pad_info server_id data,
      ∀ k b, k < 32 → b < 8 → ¬ verifyPacket (flipBit pkt k b)) ∧
    (∀ pkt, (create_pad_data_packet srv st padId).1 = some pkt →
      ∀ k b, k < 100 → b < 8 → ¬ verifyPacket (flipBit pkt k b)) := by
  have hinfo : ∀ pkt ∈ respond_pad_info server_id data,
      ∃ sid slot c, pkt = create_pad_info_packet sid slot c := by
    intro pkt hmem
    unfold respond_pad_info at hmem
    by_cases h24 : 24 ≤ data.length
    · simp only [h24, if_pos, List.mem_map] at hmem
      obtain ⟨slot, _, hEq⟩ := hmem
      exact ⟨_, _, _, hEq.symm⟩
    · simp [h24] at hmem
  refine ⟨fun p => Iff.rfl, ?_, ?_, ?_, ?_, ?_, ?_⟩
  · rw [respond_version_eq]
    exact verify_finalizeCRC _ (by rw [length_version_body]; omega)
  · intro pkt hmem
    obtain ⟨sid, slot, c, hEq⟩ := hinfo pkt hmem
    rw [hEq]
    unfold create_pad_info_packet
    exact verify_finalizeCRC _ (by rw [length_padInfoBody]; omega)
  · intro pkt h
    rw [create_pad_data_some srv st padId pkt h]
    exact verify_finalizeCRC _ (by rw [length_padDataBody]; omega)
  · intro k b hk hb
    rw [respond_version_eq]
    exact finalized_flip_fails _ (by rw [length_version_body]; omega) k b
      (by rw [length_version_body]; exact hk) hb
  · intro pkt hmem k b hk hb
    obtain ⟨sid, slot, c, hEq⟩ := hinfo pkt hmem
    rw [hEq]
    unfold create_pad_info_packet
    exact finalized_flip_fails _ (by rw [length_padInfoBody]; omega) k b
      (by rw [length_padInfoBody]; exact hk) hb
  · intro pkt h k b hk hb
    rw [create_pad_data_some srv st padId pkt h]
    exact finalized_flip_fails _ (by rw [length_padDataBody]; omega) k b
      (by rw [length_padDataBody]; exact hk) hb

/-- C2: packing two 12-bit values with the nibble scheme and unpacking
through `_stick_12bit_from_bytes` is the identity on `[0,4095]²`. -/
theorem nibble_roundtrip (x y : Nat) (hx : x ≤ 4095) (hy : y ≤ 4095) :
    stick_12bit_from_bytes (pack12 x y).1 (pack12 x y).2.1 (pack12 x y).2.2 = (x, y) := by
  have hx' : x < 4096 := by omega
  have hy' : y < 4096 := by omega
  have h255 : (0xFF : Nat) = 2 ^ 8 - 1 := by norm_num
  have h15 : (0x0F : Nat) = 2 ^ 4 - 1 := by norm_num
  unfold pack12 stick_12bit_from_bytes
  refine Prod.ext ?_ ?_
  · show (x &&& 0xFF) ||| (((((x >>> 8) &&& 0x0F) ||| ((y &&& 0x0F) <<< 4)) &&& 0x0F) <<< 8) = x
    apply Nat.eq_of_testBit_eq
    intro i
    simp only [h255, h15, Nat.testBit_lor, Nat.testBit_and, Nat.testBit_two_pow_sub_one,
      Nat.testBit_shiftLeft, Nat.testBit_shiftRight]
    by_cases h8 : i < 8
    · simp [h8, show ¬ (8 ≤ i) from by omega]
    · by_cases h12 : i < 12
      · simp [h8, show 8 ≤ i from by omega, show i - 8 < 4 from by omega,
          show ¬ (4 ≤ i - 8) from by omega, Nat.add_sub_cancel' (show 8 ≤ i from by omega)]
      · have hxf : x.testBit i = false := by
          apply Nat.testBit_lt_two_pow
          calc x < 4096 := hx'
          _ = 2 ^ 12 := by norm_num
          _ ≤ 2 ^ i := Nat.pow_le_pow_right (by norm_num) (by omega)
        simp [h8, hxf]
        omega
  · show ((((x >>> 8) &&& 0x0F) ||| ((y &&& 0x0F) <<< 4)) >>> 4) ||| (((y >>> 4) &&& 0xFF) <<< 4) = y
    apply Nat.eq_of_testBit_eq
    intro i
    simp only [h255, h15, Nat.testBit_lor, Nat.testBit_and, Nat.testBit_two_pow_sub_one,
      Nat.testBit_shiftLeft, Nat.testBit_shiftRight]
    by_cases h4 : i < 4
    · simp [show ¬ (4 ≤ i) from by omega, show 4 + i - 4 = i from by omega,
        show (4 : Nat) ≤ 4 + i from by omega, show ¬ (4 + i < 4) from by omega, h4]
    · by_cases h12 : i < 12
      · simp [show (4 : Nat) ≤ i from by omega, show ¬ (4 + i - 4 < 4) from by omega,
          show 4 + (i - 4) = i from by omega, show i - 4 < 8 from by omega,
          show ¬ (4 + i < 4) from by omega]
      · have hyf : y.testBit i = false := by
          apply Nat.testBit_lt_two_pow
          calc y < 4096 := hy'
          _ = 2 ^ 12 := by norm_num
          _ ≤ 2 ^ i := Nat.pow_le_pow_right (by norm_num) (by omega)
        have hyf2 : y.testBit (4 + (i - 4)) = false := by
          rw [show 4 + (i - 4) = i from by omega]; exact hyf
        simp [show (4 : Nat) ≤ i from by omega, show ¬ (4 + i - 4 < 4) from by omega,
          hyf, hyf2, show ¬ (i - 4 < 8) from by omega]

/-! ## Concrete states for witnesses and scenario runs -/

/-- A freshly constructed `DSUServer(server_id=0)`. -/
def freshServer : DSUServerState :=
  { server_id := 0, packet_counter := 0, pending_presses := fun _ => false, last_state := none }

/-- A parsed state with only the A button held, sticks at the origin. -/
def pressA : PadState :=
  { buttons := fun b => decide (b = Button.A), mainNormX := 0, mainNormY := 0,
    cNormX := 0, cNormY := 0, trigger_l := 0, trigger_r := 0 }

/-- A parsed state with everything released. -/
def releaseA : PadState :=
  { buttons := fun _ => false, mainNormX := 0, mainNormY := 0,
    cNormX := 0, cNormY := 0, trigger_l := 0, trigger_r := 0 }

theorem crc_constructed_packets_witness :
    verifyPacket (respond_version 0 []) ∧
    ¬ verifyPacket (flipBit (respond_version 0 []) 0 0) ∧
    verifyPacket ((create_pad_data_packet freshServer pressA 0).1.getD []) ∧
    ¬ verifyPacket (flipBit ((create_pad_data_packet freshServer pressA 0).1.getD []) 99 7) :=
  ⟨(crc_constructed_packets 0 0 [] freshServer pressA).2.1,
   (crc_constructed_packets 0 0 [] freshServer pressA).2.2.2.2.1 0 0 (by norm_num) (by norm_num),
   (crc_constructed_packets 0 0 [] freshServer pressA).2.2.2.1 _ rfl,
   (crc_constructed_packets 0 0 [] freshServer pressA).2.2.2.2.2.2 _ rfl 99 7
     (by norm_num) (by norm_num)⟩

theorem nibble_roundtrip_witness :
    stick_12bit_from_bytes (pack12 4095 2048).1 (pack12 4095 2048).2.1 (pack12 4095 2048).2.2
      = (4095, 2048) :=
  nibble_roundtrip 4095 2048 (by norm_num) (by norm_num)

set_option maxHeartbeats 2000000 in
/-- C3 counterexample: `update({A:true})` once, then two successive
packet builds with no further update - the second packet still reports
A pressed (byte 37 bit 6, A→Cross), because the live `last_state` still
holds A; the claim says it reports A=false. -/
theorem latch_claim_counterexample :
    (((create_pad_data_packet (dsu_update freshServer pressA) pressA 0).1.getD
        []).getD 37 0).testBit 6 = true ∧
    (((create_pad_data_packet
        (create_pad_data_packet (dsu_update freshServer pressA) pressA 0).2
        pressA 0).1.getD []).getD 37 0).testBit 6 = true := by
  refine ⟨?_, ?_⟩ <;> decide

set_option maxHeartbeats 2000000 in
/-- C3 (amended): `update` adds every held button to the pending latch
(monotone union) and stores the state wholesale; a built Pad Data packet
reports a button iff the live state or the latch marks it; the latch is
cleared exactly once per constructed packet; and in the corrected
scenario - press A, release A, then two builds - the first packet
reports A=true (from the latch) and the second reports A=false. -/
theorem latch_semantics_amended :
    (∀ srv st b, (dsu_update srv st).pending_presses b
        = (srv.pending_presses b || st.buttons b)) ∧
    (∀ srv st, (dsu_update srv st).last_state = some st) ∧
    (∀ pending live b, effectiveButtons pending live b = (live b || pending b)) ∧
    (∀ srv st padId pkt, (create_pad_data_packet srv st padId).1 = some pkt →
      (pkt.getD 36 0 = btnByte36 (effectiveButtons srv.pending_presses st.buttons) ∧
        pkt.getD 37 0 = btnByte37 (effectiveButtons srv.pending_presses st.buttons) ∧
        pkt.getD 38 0 = btnByte38 (effectiveButtons srv.pending_presses st.buttons) ∧
        pkt.getD 39 0 = btnByte39 (effectiveButtons srv.pending_presses st.buttons)) ∧
      (create_pad_data_packet srv st padId).2.pending_presses = fun _ => false) ∧
    (((create_pad_data_packet (dsu_update (dsu_update freshServer pressA) releaseA)
        releaseA 0).1.getD []).getD 37 0).testBit 6 = true ∧
    (((create_pad_data_packet
        (create_pad_data_packet (dsu_update (dsu_update freshServer pressA) releaseA)
          releaseA 0).2 releaseA 0).1.getD []).getD 37 0).testBit 6 = false := by
  refine ⟨fun srv st b => rfl, fun srv st => rfl, fun pending live b => rfl, ?_, by decide, by decide⟩
  intro srv st padId pkt h
  have hpkt := create_pad_data_some srv st padId pkt h
  have hclear : (create_pad_data_packet srv st padId).2.pending_presses = fun _ => false := by
    unfold create_pad_data_packet
    by_cases hc : srv.packet_counter + 1 < 2 ^ 32
    · simp only [hc, if_pos]
    · exfalso
      unfold create_pad_data_packet at h
      simp only [hc, if_neg, if_false] at h
      simp at h
  refine ⟨?_, hclear⟩
  rw [hpkt]
  unfold finalizeCRC
  rw [getD_writeLE32_outer _ _ _ _ (by omega), getD_writeLE32_outer _ _ _ _ (by omega),
    getD_writeLE32_outer _ _ _ _ (by omega), getD_writeLE32_outer _ _ _ _ (by omega)]
  exact ⟨rfl, rfl, rfl, rfl⟩

theorem latch_semantics_amended_witness :
    ((create_pad_data_packet freshServer pressA 0).1.getD []).getD 37 0
      = btnByte37 (effectiveButtons freshServer.pending_presses pressA.buttons) ∧
    (create_pad_data_packet freshServer pressA 0).2.pending_presses = fun _ => false :=
  ⟨(latch_semantics_amended.2.2.2.1 freshServer pressA 0 _ rfl).1.2.1,
   (latch_semantics_amended.2.2.2.1 freshServer pressA 0 _ rfl).2⟩

/-- A Pad Info request (`DSUC` payload) asking about slots 0 and 1:
`num_slots = 2` at offset 20, slot ids at offsets 24 and 25. -/
def padInfoReq2 : List Nat := List.replicate 20 0 ++ [2, 0, 0, 0] ++ [0, 1]

set_option maxHeartbeats 1000000 in
/-- C4: responding to a Pad Info request for slots 0 and 1 yields two
32-byte packets whose MAC last byte equals the pad id, but byte 21 (the
connected flag) is 0x02 for the non-connected slot 1 as well:
`_create_pad_info_packet` hard-codes `packet[21] = 0x02` and its
`connected` parameter only selects the battery byte 30 (0x05 vs 0x00).
Slot 1 therefore reports itself connected, against the claim. -/
theorem pad_info_connected_flag :
    (respond_pad_info 0 padInfoReq2).length = 2 ∧
    ((respond_pad_info 0 padInfoReq2).getD 0 []).length = 32 ∧
    ((respond_pad_info 0 padInfoReq2).getD 1 []).length = 32 ∧
    ((respond_pad_info 0 padInfoReq2).getD 0 []).getD 20 0 = 0 ∧
    ((respond_pad_info 0 padInfoReq2).getD 0 []).getD 21 0 = 2 ∧
    ((respond_pad_info 0 padInfoReq2).getD 0 []).getD 29 0 = 0 ∧
    ((respond_pad_info 0 padInfoReq2).getD 0 []).getD 30 0 = 5 ∧
    ((respond_pad_info 0 padInfoReq2).getD 1 []).getD 20 0 = 1 ∧
    ((respond_pad_info 0 padInfoReq2).getD 1 []).getD 21 0 = 2 ∧
    ((respond_pad_info 0 padInfoReq2).getD 1 []).getD 29 0 = 1 ∧
    ((respond_pad_info 0 padInfoReq2).getD 1 []).getD 30 0 = 0 := by
  refine ⟨?_, ?_, ?_, ?_, ?_, ?_, ?_, ?_, ?_, ?_, ?_⟩ <;> decide

/-- C5: `DSUServer.update` declares exactly one parameter (`state`) and
no `**kwargs`; the calls from the USB read loop and the BLE notification
handler pass the extra keywords `pad_id` and `connection_type`, which
Python's call binding rejects with a `TypeError` before the body runs;
the surrounding `except` swallows it, so `last_state` and
`pending_presses` are never changed by these call sites. -/
theorem update_kwargs_rejected :
    update_param_names.length = 1 ∧
    kwargs_accepted update_param_names dsu_push_kwargs = false ∧
    (∀ srv st, dsu_push_attempt srv st = srv) := by
  refine ⟨rfl, by decide, fun srv st => ?_⟩
  unfold dsu_push_attempt
  rw [if_neg (by decide)]

/-- C8: decode failure is non-fatal: both decoders return `none` on
buffers shorter than the branch minimum, and the read loops keep the
previous state on `none`. -/
theorem short_report_nonfatal :
    (∀ (cal : Calibration) (data : List Nat) (o : Nat) (bl : Bool),
      data.length < 12 + o → parse_input cal data o bl = none) ∧
    (∀ (cal : Calibration) (layout : BLELayout) (o : Nat) (data : List Nat),
      data.length < 12 → parse_ble_input cal layout o data = none) ∧
    (∀ cur : Option Parsed, read_loop_keep cur none = cur) := by
  refine ⟨?_, ?_, fun cur => rfl⟩
  · intro cal data o bl h
    unfold parse_input
    rw [if_pos h]
  · intro cal layout o data h
    unfold parse_ble_input
    rw [if_pos h]

/-- An uncalibrated profile, as at connection start. -/
def uncalibrated : Calibration :=
  { main_x_center := 0, main_y_center := 0, c_x_center := 0, c_y_center := 0,
    calibrated := false }

theorem short_report_nonfatal_witness :
    parse_input uncalibrated [] 0 false = none ∧
    parse_ble_input uncalibrated BLELayout.auto 0 [0x30] = none :=
  ⟨short_report_nonfatal.1 uncalibrated [] 0 false (by decide),
   short_report_nonfatal.2.1 uncalibrated BLELayout.auto 0 [0x30] (by decide)⟩

/-- A server whose packet counter has reached `2^32 - 1`. -/
def maxCounterServer : DSUServerState :=
  { server_id := 0, packet_counter := 2 ^ 32 - 1, pending_presses := fun _ => false,
    last_state := none }

set_option maxHeartbeats 1000000 in
/-- C10: the per-server packet counter is an unbounded Python int that
is incremented and then packed with `struct.pack_into('<I', ...)`.  On
the build after counter `2^32 - 1` the pack raises `struct.error`: no
packet is produced (instead of one carrying 0) and the counter keeps
growing, so the counter never wraps modulo 2^32.  Below the bound each
constructed packet carries exactly the incremented counter (strictly
increasing), e.g. byte 32 of the first packet of a fresh server is 1. -/
theorem packet_counter_overflow :
    (create_pad_data_packet maxCounterServer releaseA 0).1 = none ∧
    (create_pad_data_packet maxCounterServer releaseA 0).2.packet_counter = 2 ^ 32 ∧
    (create_pad_data_packet freshServer releaseA 0).2.packet_counter = 1 ∧
    ((create_pad_data_packet freshServer releaseA 0).1.getD []).getD 32 0 = 1 := by
  refine ⟨?_, ?_, ?_, ?_⟩ <;> decide

/-- Python `int()` truncation agrees with the floor on nonnegative
exact values. -/
theorem pyInt_eq_floor (q : ℚ) (h : 0 ≤ q) : pyInt q = ⌊q⌋ := by
  unfold pyInt
  rw [Int.tdiv_eq_ediv (by exact_mod_cast Rat.num_nonneg.mpr h) (by positivity)]
  rw [Rat.floor_def]

/-- Modelled from the spec: "Encode each normalized component
`v ∈ [-1,1]` as byte `round(v*127) + 128`, masked to 8 bits", with
round-half-up rounding; a refinement comparison against the source's
`stick_value_to_byte`. -/
def spec_round_byte (v : ℚ) : Nat := ((⌊v * 127 + 1 / 2⌋ + 128) % 256).toNat

/-- C6 counterexample: at `v = 2/5` the source encodes
`int(0.4*127 + 128) = 178` (truncation), while the claimed formula
`round(0.4*127) + 128` gives 179. -/
theorem stick_byte_not_rounded :
    stick_value_to_byte (2 / 5) = 178 ∧ spec_round_byte (2 / 5) = 179 ∧
    stick_value_to_byte (2 / 5) ≠ spec_round_byte (2 / 5) := by
  have h1 : stick_value_to_byte (2 / 5) = 178 := by
    unfold stick_value_to_byte
    rw [pyInt_eq_floor _ (by norm_num)]
    rw [show ⌊((2:ℚ) / 5) * 127 + 128⌋ = (178 : ℤ) from
      Int.floor_eq_iff.mpr (by constructor <;> norm_num)]
    decide
  have h2 : spec_round_byte (2 / 5) = 179 := by
    unfold spec_round_byte
    rw [show ⌊((2:ℚ) / 5) * 127 + 1 / 2⌋ = (51 : ℤ) from
      Int.floor_eq_iff.mpr (by constructor <;> norm_num)]
    decide
  refine ⟨h1, h2, ?_⟩
  rw [h1, h2]
  decide

set_option maxHeartbeats 2000000 in
/-- C6 (amended): each normalized component `v ∈ [-1,1]` is encoded as
`int(v*127 + 128) & 0xFF` - truncation, i.e. `⌊v*127⌋ + 128`, not
`round(v*127) + 128`; `v = 0` encodes to 128; and the four bytes land
at offsets 40-43 with both Y components sign-inverted first. -/
theorem stick_encoding_amended :
    (∀ v : ℚ, -1 ≤ v → v ≤ 1 → stick_value_to_byte v = (⌊v * 127⌋ + 128).toNat) ∧
    stick_value_to_byte 0 = 128 ∧
    (∀ srv st padId pkt, (create_pad_data_packet srv st padId).1 = some pkt →
      pkt.getD 40 0 = stick_value_to_byte st.mainNormX ∧
      pkt.getD 41 0 = stick_value_to_byte (-st.mainNormY) ∧
      pkt.getD 42 0 = stick_value_to_byte st.cNormX ∧
      pkt.getD 43 0 = stick_value_to_byte (-st.cNormY)) := by
  have h128 : stick_value_to_byte 0 = 128 := by
    unfold stick_value_to_byte
    rw [show ((0:ℚ) * 127 + 128) = ((128:ℤ):ℚ) by norm_num, pyInt_eq_floor _ (by norm_num),
      Int.floor_intCast]
    decide
  refine ⟨?_, h128, ?_⟩
  · intro v h1 h2
    unfold stick_value_to_byte
    have hq : (0:ℚ) ≤ v * 127 + 128 := by nlinarith
    rw [pyInt_eq_floor _ hq]
    have hadd : ⌊v * 127 + 128⌋ = ⌊v * 127⌋ + 128 := by
      rw [show (128:ℚ) = ((128:ℤ):ℚ) by norm_num, Int.floor_add_int]
    rw [hadd]
    have hlow : (-127 : ℤ) ≤ ⌊v * 127⌋ := by
      apply Int.le_floor.mpr
      push_cast
      nlinarith
    have hhigh : ⌊v * 127⌋ ≤ 127 := by
      have h3 : ⌊v * 127⌋ ≤ ⌊(127:ℚ)⌋ := Int.floor_le_floor (by nlinarith)
      simpa using h3
    rw [Int.emod_eq_of_lt (by omega) (by omega)]
  · intro srv st padId pkt h
    rw [create_pad_data_some srv st padId pkt h]
    unfold finalizeCRC
    rw [getD_writeLE32_outer _ _ _ _ (by omega), getD_writeLE32_outer _ _ _ _ (by omega),
      getD_writeLE32_outer _ _ _ _ (by omega), getD_writeLE32_outer _ _ _ _ (by omega)]
    exact ⟨rfl, rfl, rfl, rfl⟩

set_option maxHeartbeats 2000000 in
theorem stick_encoding_amended_witness :
    stick_value_to_byte (1 / 2) = ((⌊(1 / 2 : ℚ) * 127⌋ + 128).toNat) ∧
    ((create_pad_data_packet freshServer pressA 0).1.getD []).getD 40 0
      = stick_value_to_byte pressA.mainNormX :=
  ⟨stick_encoding_amended.1 (1 / 2) (by norm_num) (by norm_num),
   (stick_encoding_amended.2.2 freshServer pressA 0 _ rfl).1⟩

theorem filterMap_replicate_some {α β : Type} (f : α → Option β) (a : α) (b : β)
    (hf : f a = some b) (n : Nat) :
    (List.replicate n a).filterMap f = List.replicate n b := by
  induction n with
  | zero => rfl
  | succ m ih => simp [List.replicate_succ, List.filterMap_cons, hf, ih]

/-- C7: decoding applies the calibration as `raw − center` once
calibrated and `raw − 2048` before; and after feeding the engine its
threshold (10) of identical neutral reports, decoding that same report
yields stick offsets of exactly (0,0,0,0). -/
theorem calibration_neutral_offsets :
    (∀ (cal : Calibration) (data : List Nat) (o : Nat) (bl : Bool) (pr : Parsed),
      parse_input cal data o bl = some pr →
        pr.main_x = (if cal.calibrated then (pr.main_x_raw : ℤ) - cal.main_x_center
            else (pr.main_x_raw : ℤ) - 2048) ∧
        pr.main_y = (if cal.calibrated then (pr.main_y_raw : ℤ) - cal.main_y_center
            else (pr.main_y_raw : ℤ) - 2048) ∧
        pr.c_x = (if cal.calibrated then (pr.c_x_raw : ℤ) - cal.c_x_center
            else (pr.c_x_raw : ℤ) - 2048) ∧
        pr.c_y = (if cal.calibrated then (pr.c_y_raw : ℤ) - cal.c_y_center
            else (pr.c_y_raw : ℤ) - 2048)) ∧
    (∀ (cal0 : Calibration) (d : List Nat), 12 ≤ d.length → cal0.calibrated = false →
      (calibrate_sticks cal0 (List.replicate CALIBRATION_SAMPLES d)).calibrated = true ∧
      ∀ pr : Parsed,
        parse_input (calibrate_sticks cal0 (List.replicate CALIBRATION_SAMPLES d)) d 0 false
          = some pr →
        pr.main_x = 0 ∧ pr.main_y = 0 ∧ pr.c_x = 0 ∧ pr.c_y = 0) := by
  constructor
  · intro cal data o bl pr h
    by_cases hlen : data.length < 12 + o
    · simp only [parse_input, if_pos hlen] at h
      exact absurd h (by simp)
    · simp only [parse_input, if_neg hlen] at h
      have hpr := Option.some.inj h
      subst hpr
      exact ⟨rfl, rfl, rfl, rfl⟩
  · intro cal0 d hlen hcal0
    have hcal : calibrate_sticks cal0 (List.replicate CALIBRATION_SAMPLES d) =
        { main_x_center := (calib_extract d).1
          main_y_center := (calib_extract d).2.1
          c_x_center := (calib_extract d).2.2.1
          c_y_center := (calib_extract d).2.2.2
          calibrated := true } := by
      unfold calibrate_sticks
      rw [if_neg (by rw [hcal0]; simp)]
      rw [filterMap_replicate_some _ _ (calib_extract d) (by rw [if_pos hlen]) _]
      rw [if_neg (by simp [CALIBRATION_SAMPLES])]
      simp [CALIBRATION_SAMPLES, List.map_replicate, List.sum_replicate]
      omega
    refine ⟨by rw [hcal], ?_⟩
    intro pr h
    rw [hcal] at h
    by_cases hl2 : d.length < 12 + 0
    · omega
    · simp only [parse_input, if_neg hl2] at h
      have hpr := Option.some.inj h
      subst hpr
      unfold calOffset calib_extract
      norm_num

/-- A concrete 12-byte neutral report whose stick bytes encode 2048 on
all four axes. -/
def neutralReport : List Nat := [0, 0, 0, 0, 0, 0, 0x00, 0x88, 0x80, 0x00, 0x88, 0x80]

theorem calibration_neutral_offsets_witness :
    (calibrate_sticks uncalibrated (List.replicate CALIBRATION_SAMPLES neutralReport)).calibrated
      = true :=
  (calibration_neutral_offsets.2 uncalibrated neutralReport (by decide) (by decide)).1

/-- C9: `start` binds the first free port of 26760..26764: it stays on
26760 exactly when that port is free, falls back to 26761 when only
26760 is taken, fails fatally when the whole range is occupied, and
any port it reports is a free one preceded only by occupied ports. -/
theorem port_fallback :
    (∀ occ : Nat → Bool, occ 26760 = false → start_bind occ = some 26760) ∧
    (∀ occ : Nat → Bool, occ 26760 = true → occ 26761 = false →
      start_bind occ = some 26761) ∧
    (∀ occ : Nat → Bool, (∀ k, k < 5 → occ (26760 + k) = true) → start_bind occ = none) ∧
    (∀ (occ : Nat → Bool) (p : Nat), start_bind occ = some p →
      occ p = false ∧ 26760 ≤ p ∧ p ≤ 26764 ∧
      ∀ q, 26760 ≤ q → q < p → occ q = true) := by
  have hlist : (List.range DSU_PORT_MAX_ATTEMPTS).map (fun k => DSU_PORT + k)
      = [26760, 26761, 26762, 26763, 26764] := rfl
  refine ⟨?_, ?_, ?_, ?_⟩
  · intro occ h
    unfold start_bind
    rw [hlist]
    simp [List.find?, h]
  · intro occ h0 h1
    unfold start_bind
    rw [hlist]
    simp [List.find?, h0, h1]
  · intro occ h
    have h0 := h 0 (by omega)
    have h1 := h 1 (by omega)
    have h2 := h 2 (by omega)
    have h3 := h 3 (by omega)
    have h4 := h 4 (by omega)
    norm_num at h0 h1 h2 h3 h4
    unfold start_bind
    rw [hlist]
    simp [List.find?, h0, h1, h2, h3, h4]
  · intro occ p h
    unfold start_bind at h
    rw [hlist] at h
    cases h0 : occ 26760 with
    | false =>
      simp [List.find?, h0] at h
      subst h
      exact ⟨h0, by omega, by omega, fun q hq1 hq2 => absurd hq2 (by omega)⟩
    | true =>
      cases h1 : occ 26761 with
      | false =>
        simp [List.find?, h0, h1] at h
        subst h
        refine ⟨h1, by omega, by omega, fun q hq1 hq2 => ?_⟩
        interval_cases q
        exact h0
      | true =>
        cases h2 : occ 26762 with
        | false =>
          simp [List.find?, h0, h1, h2] at h
          subst h
          refine ⟨h2, by omega, by omega, fun q hq1 hq2 => ?_⟩
          interval_cases q
          · exact h0
          · exact h1
        | true =>
          cases h3 : occ 26763 with
          | false =>
            simp [List.find?, h0, h1, h2, h3] at h
            subst h
            refine ⟨h3, by omega, by omega, fun q hq1 hq2 => ?_⟩
            interval_cases q
            · exact h0
            · exact h1
            · exact h2
          | true =>
            cases h4 : occ 26764 with
            | false =>
              simp [List.find?, h0, h1, h2, h3, h4] at h
              subst h
              refine ⟨h4, by omega, by omega, fun q hq1 hq2 => ?_⟩
              interval_cases q
              · exact h0
              · exact h1
              · exact h2
              · exact h3
            | true =>
              simp [List.find?, h0, h1, h2, h3, h4] at h

theorem port_fallback_witness :
    start_bind (fun p => decide (p = 26760)) = some 26761 ∧
    start_bind (fun _ => false) = some 26760 :=
  ⟨port_fallback.2.1 (fun p => decide (p = 26760)) (by decide) (by decide),
   port_fallback.1 (fun _ => false) rfl⟩

end NSOBridge
